import Mathlib

/-
Verification of the apiserv core: the structured response types and their
write contracts (resp.go), the request Context with its header/body hijack
mechanism (ctx.go), and the handler-chain execution protocol
(handlerChain.Serve in ctx.go).

The embedding is a shallow one: Go structs become Lean structures, the
mutable Context becomes explicit state passing, the response stream becomes
an ordered event log, and Go panics become `none` results.  External
collaborators (net/http's ResponseWriter, status-text table and JSON
encoder) are modelled by small explicit functions; everything from the
repository itself follows the Go sources line by line.
-/

namespace Apiserv

/-- Structured error record from resp.go (`Error`): message, optional field
name, optional missing-field flag. -/
structure Error where
  Message : String
  Field : String
  IsMissing : Bool
deriving DecidableEq, Repr

/-- Payload carried in a response's `Data` field.  Go uses `interface{}`;
the claims only need an opaque optional payload, modelled as an optional
string. -/
inductive Payload where
  | none
  | str (s : String)
deriving DecidableEq, Repr

/-- JSONResponse from resp.go: the standard api response.  `Code` 0 defaults
at write time; `Success` is derived at write time. -/
structure JSONResponse where
  Errors : List Error
  Data : Payload
  Code : Int
  Success : Bool
  Indent : Bool
deriving DecidableEq, Repr

/-- JSONPResponse from resp.go: a JSONResponse plus a callback name. -/
structure JSONPResponse where
  toJSONResponse : JSONResponse
  Callback : String
deriving DecidableEq, Repr

/-- The heterogeneous `interface{}` inputs accepted by
`JSONResponse.appendErr` (resp.go).  `multi` is the MultiError aggregator
(its element type lives outside src/; per the spec it is an ordered
sequence whose elements are fed back through appendErr, so its elements
are again arbitrary inputs).  `other` stands for a value of any Go type
outside the closed accepted set, identified by its type tag. -/
inductive ErrInput where
  | errorVal (e : Error)
  | errorPtr (e : Error)
  | str (s : String)
  | bytes (s : String)
  | resp (r : JSONResponse)
  | goError (msg : String)
  | multi (es : List ErrInput)
  | other (typeTag : String)
deriving Repr

/-- Model of net/http's StatusText table (external standard library),
restricted to the codes used in this development; unknown codes yield ""
exactly as the library does. -/
def statusText : Int → String
  | 200 => "OK"
  | 204 => "No Content"
  | 301 => "Moved Permanently"
  | 302 => "Found"
  | 307 => "Temporary Redirect"
  | 308 => "Permanent Redirect"
  | 400 => "Bad Request"
  | 403 => "Forbidden"
  | 404 => "Not Found"
  | 405 => "Method Not Allowed"
  | 416 => "Requested Range Not Satisfiable"
  | 500 => "Internal Server Error"
  | _ => ""

/-- JSONResponse.appendErr from resp.go: normalizes one input into the
response's error list.  The `multi` case is Go's
`for _, err := range v { r.appendErr(err) }` loop, encoded head/tail; the
`other` case is the `log.Panicf` default branch, modelled as `none`
(the Go panic aborts construction). -/
def appendErr : List Error → ErrInput → Option (List Error)
  | acc, .errorVal e => some (acc ++ [e])
  | acc, .errorPtr e => some (acc ++ [e])
  | acc, .str s => some (acc ++ [⟨s, "", false⟩])
  | acc, .bytes s => some (acc ++ [⟨s, "", false⟩])
  | acc, .resp r => some (acc ++ r.Errors)
  | acc, .goError msg => some (acc ++ [⟨msg, "", false⟩])
  | acc, .multi [] => some acc
  | acc, .multi (e :: es) =>
    match appendErr acc e with
    | some acc2 => appendErr acc2 (.multi es)
    | none => none
  | _acc, .other _ => none
termination_by _acc e => sizeOf e
decreasing_by all_goals (simp; try omega)

/-- The `for _, err := range errs { r.appendErr(err) }` loop of
NewJSONErrorResponse; a panic (`none`) aborts and propagates. -/
def appendErrs (acc : Option (List Error)) (errs : List ErrInput) : Option (List Error) :=
  errs.foldl (fun a e =>
    match a with
    | some l => appendErr l e
    | none => none) acc

/-- NewJSONErrorResponse from resp.go: builds an error response with the
given code; an empty input list is replaced by the status text of the
code.  A `none` result is the Go panic from appendErr's default branch. -/
def NewJSONErrorResponse (code : Int) (errs : List ErrInput) : Option JSONResponse :=
  let errs := if errs.isEmpty then [ErrInput.str (statusText code)] else errs
  match appendErrs (some []) errs with
  | some es => some ⟨es, Payload.none, code, false, false⟩
  | none => none

/-- The older name used by ctx.go's hijack branch (`NewErrorResponse`);
same function as NewJSONErrorResponse. -/
abbrev NewErrorResponse := NewJSONErrorResponse

/-- NewJSONResponse from resp.go: a success response with code 200. -/
def NewJSONResponse (data : Payload) : JSONResponse :=
  ⟨[], data, 200, false, false⟩

/-- A Go `error` result: `none` is nil, `some msg` an error. -/
abbrev GoErr := Option String

/-- Mime constants from resp.go. -/
def MimeJSON : String := "application/json; charset=utf-8"

def MimeJavascript : String := "application/javascript; charset=utf-8"

def MimePlain : String := "text/plain; charset=utf-8"

/-- Helper for the JSON-encoder model: quote a string (escaping elided). -/
def jsonQuote (s : String) : String := "\"" ++ s ++ "\""

/-- Model of encoding/json (external standard library) on an Error record,
with the struct tags' omitempty semantics. -/
def Error.encode (e : Error) : String :=
  let fs := (if e.Message = "" then [] else ["\"message\":" ++ jsonQuote e.Message])
    ++ (if e.Field = "" then [] else ["\"field\":" ++ jsonQuote e.Field])
    ++ (if e.IsMissing then ["\"isMissing\":true"] else [])
  "\x7b" ++ String.intercalate "," fs ++ "\x7d"

/-- Model of encoding/json (external standard library) on a JSONResponse,
with the struct tags' omitempty semantics. -/
def JSONResponse.encode (r : JSONResponse) : String :=
  let fs := (if r.Errors.isEmpty then []
      else ["\"errors\":[" ++ String.intercalate "," (r.Errors.map Error.encode) ++ "]"])
    ++ (match r.Data with
      | .none => []
      | .str s => ["\"data\":" ++ jsonQuote s])
    ++ ["\"code\":" ++ toString r.Code, "\"success\":" ++ (if r.Success then "true" else "false")]
  "\x7b" ++ String.intercalate "," fs ++ "\x7d"

/-- A chunk of bytes handed to Context.Write.  Raw bytes are a plain
string; the output of the JSON encoder (`Encoder.Encode`, which appends a
newline) and of the JSONP wrapper keep their semantic source so theorems
can speak about which response reached the stream. -/
inductive Chunk where
  | raw (s : String)
  | json (v : JSONResponse) (indent : Bool)
  | jsonp (callback : String) (v : JSONPResponse)
deriving DecidableEq, Repr

/-- The byte content of a chunk (indentation is elided in the encoder
model; `Encode` appends a newline). -/
def chunkStr : Chunk → String
  | .raw s => s
  | .json v _ => v.encode ++ "\n"
  | .jsonp cb v => cb ++ "(" ++ v.toJSONResponse.encode ++ ")"

/-- Byte length of a chunk, as Go's `len(p)`. -/
def chunkLen (c : Chunk) : Nat := (chunkStr c).length

/-- One event forwarded to the underlying http.ResponseWriter: a header
commit, a body write, or an http.Redirect (external library call, kept
abstract). -/
inductive StreamEvent where
  | header (code : Int)
  | body (c : Chunk)
  | redirect (url : String) (code : Int)
deriving DecidableEq, Repr

/-- The Context from ctx.go.  `status`, `done` and `hijackServeContent`
are the struct's fields; `headers` models the ResponseWriter's header map,
`events` the ordered stream of commits reaching the underlying
ResponseWriter, and `wErrs` scripts the errors the underlying writer
returns on successive body writes (empty list: all writes succeed).  The
request handle, router params and the lazy scratch map are omitted: no
claim concerns them. -/
structure Context where
  status : Int
  done : Bool
  hijackServeContent : Bool
  headers : List (String × String)
  events : List StreamEvent
  wErrs : List GoErr
deriving DecidableEq, Repr

/-- Header-map update: set key to value, replacing an existing entry. -/
def headerSet (hs : List (String × String)) (k v : String) : List (String × String) :=
  hs.filter (fun kv => kv.1 ≠ k) ++ [(k, v)]

/-- Context.SetContentType from ctx.go: no-op on "", else sets
Content-Type and X-Content-Type-Options. -/
def Context.SetContentType (ctx : Context) (typ : String) : Context :=
  if typ = "" then ctx
  else { ctx with
    headers := headerSet (headerSet ctx.headers "Content-Type" typ)
      "X-Content-Type-Options" "nosniff" }

/-- The underlying ResponseWriter.WriteHeader (external net/http): commits
the header to the stream. -/
def Context.rwWriteHeader (ctx : Context) (s : Int) : Context :=
  { ctx with events := ctx.events ++ [StreamEvent.header s] }

/-- The underlying ResponseWriter.Write (external net/http): commits the
bytes to the stream and reports the next scripted error, if any. -/
def Context.rwWrite (ctx : Context) (p : Chunk) : Context × Nat × GoErr :=
  match ctx.wErrs with
  | [] => ({ ctx with events := ctx.events ++ [StreamEvent.body p] }, chunkLen p, none)
  | e :: rest =>
    ({ ctx with events := ctx.events ++ [StreamEvent.body p], wErrs := rest }, chunkLen p, e)

/-- Context.WriteHeader from ctx.go: records the status first, then
suppresses the commit when hijacking a status of 300 or more, else
forwards it. -/
def Context.WriteHeader (ctx : Context) (s : Int) : Context :=
  let ctx := { ctx with status := s }
  if ctx.hijackServeContent = true ∧ 300 ≤ ctx.status then ctx
  else ctx.rwWriteHeader s

/-- Termination measure helper: 1 while hijack mode is armed, 0 after. -/
def hijackNat (ctx : Context) : Nat := if ctx.hijackServeContent then 1 else 0

theorem SetContentType_hijack (ctx : Context) (t : String) :
    (ctx.SetContentType t).hijackServeContent = ctx.hijackServeContent := by
  unfold Context.SetContentType
  split <;> rfl

theorem WriteHeader_hijack (ctx : Context) (s : Int) :
    (ctx.WriteHeader s).hijackServeContent = ctx.hijackServeContent := by
  unfold Context.WriteHeader Context.rwWriteHeader
  dsimp only
  split <;> rfl

theorem hijackNat_SetContentType (ctx : Context) (t : String) :
    hijackNat (ctx.SetContentType t) = hijackNat ctx := by
  unfold hijackNat
  rw [SetContentType_hijack]

theorem hijackNat_WriteHeader (ctx : Context) (s : Int) :
    hijackNat (ctx.WriteHeader s) = hijackNat ctx := by
  unfold hijackNat
  rw [WriteHeader_hijack]

mutual

/-- Context.Write from ctx.go: while hijacking with a recorded status of
300 or more, the bytes are not forwarded; instead hijack mode is switched
off, an error response built from the recorded status and the bytes is
written through WriteToCtx (its error discarded) and (len p, nil) is
returned.  Otherwise the context is marked done and the bytes go to the
underlying writer.  The `none` arm of the inner match is unreachable:
appendErr never panics on a byte-sequence input. -/
def Context.Write (ctx : Context) (p : Chunk) : Context × Nat × GoErr :=
  if h : ctx.hijackServeContent = true ∧ 300 ≤ ctx.status then
    let ctx1 := { ctx with hijackServeContent := false }
    let ctx2 :=
      match NewErrorResponse ctx1.status [ErrInput.bytes (chunkStr p)] with
      | some r => (JSONResponse.WriteToCtx r ctx1).2.1
      | none => ctx1
    (ctx2, chunkLen p, none)
  else
    Context.rwWrite { ctx with done := true } p
termination_by 4 * hijackNat ctx
decreasing_by
  all_goals
    ((try split) <;>
      simp_all [hijackNat, WriteHeader_hijack, SetContentType_hijack] <;>
      omega)

/-- Context.JSON from ctx.go: marks the context done, sets the JSON
content type, writes the header when the code is positive, and encodes the
value through Context.Write, returning the encoder's error. -/
def Context.JSON (ctx : Context) (code : Int) (indent : Bool) (v : JSONResponse) :
    Context × GoErr :=
  let ctx := { ctx with done := true }
  let ctx := ctx.SetContentType MimeJSON
  let ctx := if 0 < code then ctx.WriteHeader code else ctx
  let res := Context.Write ctx (Chunk.json v indent)
  (res.1, res.2.2)
termination_by 4 * hijackNat ctx + 1
decreasing_by
  all_goals
    ((try split) <;>
      simp_all [hijackNat, WriteHeader_hijack, SetContentType_hijack] <;>
      omega)

/-- JSONResponse.WriteToCtx from resp.go: code 204 writes only the header;
code 0 defaults to 400 when errors are present, else 200; Success is
derived from the final code and the whole value is written via
Context.JSON.  Returns the mutated response (Go mutates through the
pointer) along with the context and error. -/
def JSONResponse.WriteToCtx (r : JSONResponse) (ctx : Context) :
    JSONResponse × Context × GoErr :=
  if r.Code = 204 then
    (r, ctx.WriteHeader 204, none)
  else
    let r := if r.Code = 0 then
        { r with Code := if 0 < r.Errors.length then 400 else 200 }
      else r
    let r := { r with Success := decide (200 ≤ r.Code ∧ r.Code < 300) }
    let res := Context.JSON ctx r.Code r.Indent r
    (r, res.1, res.2)
termination_by 4 * hijackNat ctx + 3
decreasing_by
  all_goals
    ((try split) <;>
      simp_all [hijackNat, WriteHeader_hijack, SetContentType_hijack] <;>
      omega)

end

/-- Context.Printf from ctx.go: marks the context done, sets the (default
plain) content type, writes the header when the code is positive, and
sends the already-formatted string through Context.Write (fmt.Fprintf
writes through the context). -/
def Context.Printf (ctx : Context) (code : Int) (contentType s : String) :
    Context × Nat × GoErr :=
  let ctx := { ctx with done := true }
  let ct := if contentType = "" then MimePlain else contentType
  let ctx := ctx.SetContentType ct
  let ctx := if 0 < code then ctx.WriteHeader code else ctx
  ctx.Write (Chunk.raw s)

/-- Modelled from the spec: `ctx.JSONP` is invoked by
JSONPResponse.WriteToCtx (resp.go line 339) but its definition is not
among the sources.  Per spec sections 4.1 and 6 it mirrors Context.JSON
with the javascript content type and wraps the JSON body in a call to the
callback name. -/
def Context.JSONP (ctx : Context) (code : Int) (callback : String) (v : JSONPResponse) :
    Context × GoErr :=
  let ctx := { ctx with done := true }
  let ctx := ctx.SetContentType MimeJavascript
  let ctx := if 0 < code then ctx.WriteHeader code else ctx
  let res := Context.Write ctx (Chunk.jsonp callback v)
  (res.1, res.2.2)

/-- JSONPResponse.WriteToCtx from resp.go: code 204 writes only the
header; code 0 becomes 200 unconditionally; Success is derived from the
final code, and the transport status passed to ctx.JSONP is always 200. -/
def JSONPResponse.WriteToCtx (r : JSONPResponse) (ctx : Context) :
    JSONPResponse × Context × GoErr :=
  if r.toJSONResponse.Code = 204 then
    (r, ctx.WriteHeader 204, none)
  else
    let r := if r.toJSONResponse.Code = 0 then
        { r with toJSONResponse := { r.toJSONResponse with Code := 200 } }
      else r
    let r := { r with toJSONResponse := { r.toJSONResponse with
      Success := decide (200 ≤ r.toJSONResponse.Code ∧ r.toJSONResponse.Code < 300) } }
    let res := Context.JSONP ctx 200 r.Callback r
    (r, res.1, res.2)

/-- The payload of a simpleResp (resp.go): Go `interface{}` restricted to
the shapes the type switch in simpleResp.WriteToCtx distinguishes.
`reader` is an io.Reader whose streamed content is the string; `formatted`
is any other value, rendered by fmt.Fprintf as the string. -/
inductive SimpleVal where
  | nilVal
  | bytes (s : String)
  | str (s : String)
  | reader (s : String)
  | formatted (s : String)
deriving DecidableEq, Repr

/-- simpleResp.WriteToCtx from resp.go: optional content type, optional
header when the code is positive, then the payload written according to
its shape (all four non-nil shapes reach the stream through
Context.Write). -/
def simpleRespWriteToCtx (ct : String) (v : SimpleVal) (code : Int) (ctx : Context) :
    Context × GoErr :=
  let ctx := if ct = "" then ctx else ctx.SetContentType ct
  let ctx := if 0 < code then ctx.WriteHeader code else ctx
  match v with
  | .nilVal => (ctx, none)
  | .bytes s => let res := ctx.Write (Chunk.raw s); (res.1, res.2.2)
  | .str s => let res := ctx.Write (Chunk.raw s); (res.1, res.2.2)
  | .reader s => let res := ctx.Write (Chunk.raw s); (res.1, res.2.2)
  | .formatted s => let res := ctx.Write (Chunk.raw s); (res.1, res.2.2)

/-- Modelled from the spec: ErrInvalidURL is referenced by
redirResp.WriteToCtx (resp.go) but declared outside the sources; the spec
calls it the "invalid target" error for an empty redirect URL. -/
def ErrInvalidURL : String := "invalid redirect url"

/-- redirResp.WriteToCtx from resp.go: empty url fails with
ErrInvalidURL, else http.Redirect (external net/http, kept as one stream
event) is issued. -/
def redirRespWriteToCtx (url : String) (code : Int) (ctx : Context) : Context × GoErr :=
  if url = "" then (ctx, some ErrInvalidURL)
  else ({ ctx with events := ctx.events ++ [StreamEvent.redirect url code] }, none)

/-- The closed set of Response values a handler can return (the Response
interface of resp.go; the file variant is out of the claims' scope and
the directory-listing helpers are out of the spec's scope).  `breakR` is
the Break sentinel: in Go a unique `&simpleResp{}` pointer distinguished
by identity, here a dedicated constructor. -/
inductive Response where
  | json (r : JSONResponse)
  | jsonp (r : JSONPResponse)
  | redir (url : String) (code : Int)
  | simple (ct : String) (v : SimpleVal) (code : Int)
  | breakR
deriving DecidableEq, Repr

/-- Dispatch of the Response interface's WriteToCtx.  Break's underlying
value is a zero simpleResp, so its WriteToCtx is the zero simpleResp
write (the chain never invokes it). -/
def Response.WriteToCtx : Response → Context → Context × GoErr
  | .json r, ctx => (JSONResponse.WriteToCtx r ctx).2
  | .jsonp r, ctx => (JSONPResponse.WriteToCtx r ctx).2
  | .redir url code, ctx => redirRespWriteToCtx url code ctx
  | .simple ct v code, ctx => simpleRespWriteToCtx ct v code ctx
  | .breakR, ctx => simpleRespWriteToCtx "" SimpleVal.nilVal 0 ctx

/-- A handler (ctx.go): reads and mutates the Context and returns an
optional Response (`none` is Go's nil). -/
abbrev Handler := Context → Context × Option Response

/-- A handler chain (ctx.go). -/
abbrev handlerChain := List Handler

/-- Result of serving one request: the final context, instrumented with
how many handlers ran and the list of responses the chain itself passed
to WriteToCtx (the Go Serve returns nothing; the two extra fields only
record what happened, for stating the chain theorems). -/
structure ServeResult where
  ctx : Context
  ran : Nat
  wrote : List Response
deriving DecidableEq, Repr

/-- handlerChain.Serve from ctx.go: visit handlers in order; nil continues,
Break stops silently, any other response stops the chain and is written
via WriteToCtx only when the context is not already done. -/
def handlerChain.Serve : handlerChain → Context → ServeResult
  | [], ctx => ⟨ctx, 0, []⟩
  | h :: hs, ctx =>
    match h ctx with
    | (ctx1, none) =>
      let res := handlerChain.Serve hs ctx1
      ⟨res.ctx, res.ran + 1, res.wrote⟩
    | (ctx1, some .breakR) => ⟨ctx1, 1, []⟩
    | (ctx1, some r) =>
      if ctx1.done then ⟨ctx1, 1, []⟩
      else ⟨(r.WriteToCtx ctx1).1, 1, [r]⟩

/-- Run a prefix of handlers that all return nil, threading the context;
`none` when some handler in the prefix returns a response.  Used to state
the chain theorems about the first deciding handler. -/
def chainNilRun : List Handler → Context → Option Context
  | [], ctx => some ctx
  | h :: hs, ctx =>
    match h ctx with
    | (ctx1, none) => chainNilRun hs ctx1
    | (_, some _) => none

/-- Spec-shaped normal form of one error input, written after the claim's
words (each accepted input contributes its normalized errors, a response
splices its list flat, an aggregator is flattened recursively in order,
anything else is a programmer error): the in-order concatenation the
claim describes, to be compared against the source's appendErr. -/
def specNormalize : ErrInput → Option (List Error)
  | .errorVal e => some [e]
  | .errorPtr e => some [e]
  | .str s => some [⟨s, "", false⟩]
  | .bytes s => some [⟨s, "", false⟩]
  | .resp r => some r.Errors
  | .goError msg => some [⟨msg, "", false⟩]
  | .multi [] => some []
  | .multi (e :: es) =>
    match specNormalize e, specNormalize (.multi es) with
    | some l, some l2 => some (l ++ l2)
    | _, _ => none
  | .other _ => none
termination_by e => sizeOf e
decreasing_by all_goals (simp; try omega)

/-- A fresh per-request context, as handlerChain.Serve builds it. -/
def ctx0 : Context := ⟨0, false, false, [], [], []⟩

/-- A context in the middle of a failing http.ServeContent call: hijack
armed, a 416 status already recorded, and the underlying writer scripted
to fail its next write. -/
def ctxHijack : Context := ⟨416, false, true, [], [], [some "broken pipe"]⟩

/-- A sample structured error. -/
def errSample : Error := ⟨"missing id", "id", true⟩

/-- A 204 response whose Success field starts out false. -/
def resp204 : JSONResponse := ⟨[], Payload.none, 204, false, false⟩

/-- A callback-wrapped response with unset code and one error. -/
def jsonpZero : JSONPResponse := ⟨⟨[⟨"boom", "", false⟩], Payload.none, 0, false, false⟩, "cb"⟩

/-- A callback-wrapped response with code 204. -/
def jsonp204 : JSONPResponse := ⟨⟨[], Payload.none, 204, false, false⟩, "cb"⟩

/-- A plain success response value for chain witnesses. -/
def respPong : Response := .json (NewJSONResponse (Payload.str "pong"))

/-- Handler returning the Break sentinel. -/
def hBreak : Handler := fun ctx => (ctx, some Response.breakR)

/-- Handler returning a real response. -/
def hPong : Handler := fun ctx => (ctx, some respPong)

/-- Handler returning nil. -/
def hNil : Handler := fun ctx => (ctx, none)

/-- A context right after Context.File armed hijack mode, before any
header was recorded. -/
def ctxArm : Context := ⟨0, false, true, [], [], []⟩

/-- A plain 500 error response. -/
def resp500 : JSONResponse := ⟨[⟨"Internal Server Error", "", false⟩], Payload.none, 500, false, false⟩

/-
Supporting lemmas: closed-form evaluations of the context operations,
used by the claim theorems below.
-/

theorem rwWrite_eq (ctx : Context) (p : Chunk) :
    ctx.rwWrite p =
      ({ ctx with events := ctx.events ++ [StreamEvent.body p], wErrs := ctx.wErrs.tail },
        chunkLen p, ctx.wErrs.headD none) := by
  cases h : ctx.wErrs <;> simp [Context.rwWrite, h]

theorem SetContentType_ne (ctx : Context) (t : String) (h : t ≠ "") :
    ctx.SetContentType t =
      { ctx with
          headers := headerSet (headerSet ctx.headers "Content-Type" t)
            "X-Content-Type-Options" "nosniff" } := by
  simp [Context.SetContentType, h]

theorem SetContentType_done (ctx : Context) (t : String) :
    (ctx.SetContentType t).done = ctx.done := by
  unfold Context.SetContentType
  split <;> rfl

theorem WriteHeader_done (ctx : Context) (s : Int) :
    (ctx.WriteHeader s).done = ctx.done := by
  unfold Context.WriteHeader Context.rwWriteHeader
  dsimp only
  split <;> rfl

theorem WriteHeader_else (ctx : Context) (s : Int)
    (h : ¬(ctx.hijackServeContent = true ∧ 300 ≤ s)) :
    ctx.WriteHeader s =
      { ctx with status := s, events := ctx.events ++ [StreamEvent.header s] } := by
  simp only [Context.WriteHeader, Context.rwWriteHeader]
  rw [if_neg h]

theorem WriteHeader_hijacked (ctx : Context) (s : Int)
    (h1 : ctx.hijackServeContent = true) (h2 : 300 ≤ s) :
    ctx.WriteHeader s = { ctx with status := s } := by
  simp only [Context.WriteHeader, Context.rwWriteHeader]
  rw [if_pos ⟨h1, h2⟩]

theorem Write_else (ctx : Context) (p : Chunk)
    (h : ¬(ctx.hijackServeContent = true ∧ 300 ≤ ctx.status)) :
    ctx.Write p = Context.rwWrite { ctx with done := true } p := by
  simp only [Context.Write]
  rw [dif_neg h]

theorem newErrorResponse_bytes (code : Int) (s : String) :
    NewJSONErrorResponse code [ErrInput.bytes s] =
      some ⟨[⟨s, "", false⟩], Payload.none, code, false, false⟩ := by
  simp [NewJSONErrorResponse, appendErrs, appendErr]

theorem Write_hijack (ctx : Context) (p : Chunk)
    (h1 : ctx.hijackServeContent = true) (h2 : 300 ≤ ctx.status) :
    ctx.Write p =
      ((JSONResponse.WriteToCtx
          ⟨[⟨chunkStr p, "", false⟩], Payload.none, ctx.status, false, false⟩
          { ctx with hijackServeContent := false }).2.1,
        chunkLen p, none) := by
  simp only [Context.Write]
  rw [dif_pos ⟨h1, h2⟩]
  simp [NewErrorResponse, newErrorResponse_bytes]

theorem JSON_eval (ctx : Context) (code : Int) (ind : Bool) (v : JSONResponse)
    (hh : ctx.hijackServeContent = false) (hc : 0 < code) :
    Context.JSON ctx code ind v =
      ({ status := code, done := true, hijackServeContent := false,
         headers := headerSet (headerSet ctx.headers "Content-Type" MimeJSON)
           "X-Content-Type-Options" "nosniff",
         events := ctx.events ++ [StreamEvent.header code, StreamEvent.body (Chunk.json v ind)],
         wErrs := ctx.wErrs.tail }, ctx.wErrs.headD none) := by
  simp only [Context.JSON]
  rw [SetContentType_ne _ _ (by decide)]
  rw [if_pos hc]
  rw [WriteHeader_else _ _ (by simp [hh])]
  rw [Write_else _ _ (by simp [hh])]
  rw [rwWrite_eq]
  simp [hh]

theorem WriteToCtx_eval (r : JSONResponse) (ctx : Context)
    (hh : ctx.hijackServeContent = false) (h0 : r.Code ≠ 0) (h204 : r.Code ≠ 204)
    (hpos : 0 < r.Code) :
    JSONResponse.WriteToCtx r ctx =
      ({ r with Success := decide (200 ≤ r.Code ∧ r.Code < 300) },
       { status := r.Code, done := true, hijackServeContent := false,
         headers := headerSet (headerSet ctx.headers "Content-Type" MimeJSON)
           "X-Content-Type-Options" "nosniff",
         events := ctx.events ++ [StreamEvent.header r.Code,
           StreamEvent.body
             (Chunk.json { r with Success := decide (200 ≤ r.Code ∧ r.Code < 300) } r.Indent)],
         wErrs := ctx.wErrs.tail }, ctx.wErrs.headD none) := by
  simp only [JSONResponse.WriteToCtx]
  rw [if_neg h204, if_neg h0]
  rw [JSON_eval _ _ _ _ hh hpos]

theorem WriteToCtx_eval_zero (r : JSONResponse) (ctx : Context)
    (hh : ctx.hijackServeContent = false) (h0 : r.Code = 0) :
    JSONResponse.WriteToCtx r ctx =
      (let c : Int := if 0 < r.Errors.length then 400 else 200
       let r2 : JSONResponse := { r with Code := c, Success := decide (200 ≤ c ∧ c < 300) }
       (r2,
        { status := c, done := true, hijackServeContent := false,
          headers := headerSet (headerSet ctx.headers "Content-Type" MimeJSON)
            "X-Content-Type-Options" "nosniff",
          events := ctx.events ++ [StreamEvent.header c, StreamEvent.body (Chunk.json r2 r.Indent)],
          wErrs := ctx.wErrs.tail }, ctx.wErrs.headD none)) := by
  simp only [JSONResponse.WriteToCtx]
  rw [if_neg (by rw [h0]; decide), if_pos h0]
  by_cases he : 0 < r.Errors.length
  · rw [if_pos he]
    rw [JSON_eval _ _ _ _ hh (by show (0 : Int) < 400; omega)]
  · rw [if_neg he]
    rw [JSON_eval _ _ _ _ hh (by show (0 : Int) < 200; omega)]

theorem Write_done_of_nohijack (ctx : Context) (p : Chunk)
    (hh : ctx.hijackServeContent = false) :
    (ctx.Write p).1.done = true := by
  rw [Write_else _ _ (by simp [hh])]
  rw [rwWrite_eq]

theorem JSON_done_nohijack (ctx : Context) (code : Int) (ind : Bool) (v : JSONResponse)
    (hh : ctx.hijackServeContent = false) :
    (Context.JSON ctx code ind v).1.done = true := by
  simp only [Context.JSON]
  apply Write_done_of_nohijack
  split <;> simp [WriteHeader_hijack, SetContentType_hijack, hh]

theorem WriteToCtx_done_nohijack (r : JSONResponse) (ctx : Context)
    (hh : ctx.hijackServeContent = false) (h204 : r.Code ≠ 204) :
    (JSONResponse.WriteToCtx r ctx).2.1.done = true := by
  simp only [JSONResponse.WriteToCtx]
  rw [if_neg h204]
  exact JSON_done_nohijack _ _ _ _ hh

theorem Write_done (ctx : Context) (p : Chunk) : (ctx.Write p).1.done = true := by
  by_cases h : ctx.hijackServeContent = true ∧ 300 ≤ ctx.status
  · rw [Write_hijack _ _ h.1 h.2]
    refine WriteToCtx_done_nohijack _ _ rfl ?_
    have h2 := h.2
    simp only []
    omega
  · rw [Write_else _ _ h]
    rw [rwWrite_eq]

theorem JSON_done (ctx : Context) (code : Int) (ind : Bool) (v : JSONResponse) :
    (Context.JSON ctx code ind v).1.done = true := by
  simp only [Context.JSON]
  exact Write_done _ _

theorem Printf_done (ctx : Context) (code : Int) (ct s : String) :
    (ctx.Printf code ct s).1.done = true := by
  simp only [Context.Printf]
  exact Write_done _ _

theorem JSONP_eval200 (ctx : Context) (cb : String) (v : JSONPResponse) :
    Context.JSONP ctx 200 cb v =
      ({ status := 200, done := true, hijackServeContent := ctx.hijackServeContent,
         headers := headerSet (headerSet ctx.headers "Content-Type" MimeJavascript)
           "X-Content-Type-Options" "nosniff",
         events := ctx.events ++ [StreamEvent.header 200, StreamEvent.body (Chunk.jsonp cb v)],
         wErrs := ctx.wErrs.tail }, ctx.wErrs.headD none) := by
  simp only [Context.JSONP]
  rw [SetContentType_ne _ _ (by decide)]
  rw [if_pos (by omega : (0 : Int) < 200)]
  rw [WriteHeader_else _ _ (by simp)]
  rw [Write_else _ _ (by simp)]
  rw [rwWrite_eq]
  simp

theorem JSONPWriteToCtx_eval (rp : JSONPResponse) (ctx : Context)
    (h204 : rp.toJSONResponse.Code ≠ 204) :
    JSONPResponse.WriteToCtx rp ctx =
      (let c : Int := if rp.toJSONResponse.Code = 0 then 200 else rp.toJSONResponse.Code
       let rp2 : JSONPResponse :=
         ⟨{ rp.toJSONResponse with Code := c, Success := decide (200 ≤ c ∧ c < 300) },
           rp.Callback⟩
       (rp2,
        { status := 200, done := true, hijackServeContent := ctx.hijackServeContent,
          headers := headerSet (headerSet ctx.headers "Content-Type" MimeJavascript)
            "X-Content-Type-Options" "nosniff",
          events := ctx.events ++ [StreamEvent.header 200,
            StreamEvent.body (Chunk.jsonp rp.Callback rp2)],
          wErrs := ctx.wErrs.tail }, ctx.wErrs.headD none)) := by
  simp only [JSONPResponse.WriteToCtx]
  rw [if_neg h204]
  by_cases h0 : rp.toJSONResponse.Code = 0
  · rw [if_pos h0]
    rw [JSONP_eval200]
    simp [h0]
  · rw [if_neg h0]
    rw [JSONP_eval200]
    simp [h0]

theorem appendErr_spec (acc : List Error) (e : ErrInput) :
    appendErr acc e = (specNormalize e).map (fun l => acc ++ l) := by
  induction acc, e using appendErr.induct <;>
    simp_all [appendErr, specNormalize]
  rename_i acc e es acc2 hx ih2 ih1
  obtain ⟨a, ha, rfl⟩ := hx
  rw [ha]
  cases hm : specNormalize (ErrInput.multi es) <;> simp_all [List.append_assoc]

theorem appendErrs_none (errs : List ErrInput) : appendErrs none errs = none := by
  induction errs with
  | nil => rfl
  | cons e es ih =>
    simp only [appendErrs, List.foldl] at ih ⊢
    exact ih

theorem appendErrs_multi (errs : List ErrInput) :
    ∀ acc, appendErrs (some acc) errs = appendErr acc (ErrInput.multi errs) := by
  induction errs with
  | nil => intro acc; simp [appendErrs, appendErr]
  | cons e es ih =>
    intro acc
    simp only [appendErrs, List.foldl]
    cases h : appendErr acc e with
    | some acc2 =>
      have := ih acc2
      simp only [appendErrs] at this
      rw [this]
      simp [appendErr, h]
    | none =>
      have := appendErrs_none es
      simp only [appendErrs] at this
      rw [this]
      simp [appendErr, h]

theorem specNormalize_multi_none (t : String) (errs : List ErrInput)
    (hmem : ErrInput.other t ∈ errs) :
    specNormalize (ErrInput.multi errs) = none := by
  induction errs with
  | nil => cases hmem
  | cons e es ih =>
    rcases List.mem_cons.mp hmem with rfl | hm
    · simp [specNormalize]
    · cases hse : specNormalize e <;> simp [specNormalize, hse, ih hm]

theorem chainNilRun_cons_none {g : Handler} {ctx ctxa : Context}
    (hg : g ctx = (ctxa, none)) (pre : List Handler) :
    chainNilRun (g :: pre) ctx = chainNilRun pre ctxa := by
  simp [chainNilRun, hg]

theorem chainNilRun_cons_some {g : Handler} {ctx ctxa : Context} {rr : Response}
    (hg : g ctx = (ctxa, some rr)) (pre : List Handler) :
    chainNilRun (g :: pre) ctx = none := by
  simp [chainNilRun, hg]

theorem Serve_cons_none {g : Handler} {ctx ctxa : Context}
    (hg : g ctx = (ctxa, none)) (hs : List Handler) :
    handlerChain.Serve (g :: hs) ctx =
      ⟨(handlerChain.Serve hs ctxa).ctx, (handlerChain.Serve hs ctxa).ran + 1,
        (handlerChain.Serve hs ctxa).wrote⟩ := by
  simp [handlerChain.Serve, hg]

theorem Serve_cons_some {g : Handler} {ctx ctxa : Context} {r : Response}
    (hg : g ctx = (ctxa, some r)) (hr : r ≠ Response.breakR) (hs : List Handler) :
    handlerChain.Serve (g :: hs) ctx =
      if ctxa.done then ⟨ctxa, 1, []⟩ else ⟨(r.WriteToCtx ctxa).1, 1, [r]⟩ := by
  cases r <;> first
    | exact absurd rfl hr
    | simp [handlerChain.Serve, hg]

theorem Serve_cons_break {g : Handler} {ctx ctxa : Context}
    (hg : g ctx = (ctxa, some Response.breakR)) (hs : List Handler) :
    handlerChain.Serve (g :: hs) ctx = ⟨ctxa, 1, []⟩ := by
  simp [handlerChain.Serve, hg]

/-
Claim theorems.
-/

/-- C1: while hijackServeContent is true on a Context, a WriteHeader call
with status of 300 or more records the status but forwards nothing to the
underlying stream, and the next Write call, instead of forwarding its
bytes raw, constructs a structured error response from the recorded
status and those bytes and writes that response (header plus JSON body)
to the real stream, after which hijack mode is off. -/
theorem hijack_suppresses_header_and_redirects_next_write
    (ctx : Context) (s : Int) (p : Chunk)
    (hh : ctx.hijackServeContent = true) (hs : 300 ≤ s) :
    (ctx.WriteHeader s).status = s ∧
    (ctx.WriteHeader s).events = ctx.events ∧
    NewErrorResponse s [ErrInput.bytes (chunkStr p)] =
      some ⟨[⟨chunkStr p, "", false⟩], Payload.none, s, false, false⟩ ∧
    ((ctx.WriteHeader s).Write p).1.events =
      ctx.events ++ [StreamEvent.header s,
        StreamEvent.body (Chunk.json
          ⟨[⟨chunkStr p, "", false⟩], Payload.none, s, false, false⟩ false)] ∧
    ((ctx.WriteHeader s).Write p).1.hijackServeContent = false ∧
    ((ctx.WriteHeader s).Write p).1.done = true := by
  have hw : ctx.WriteHeader s = { ctx with status := s } := WriteHeader_hijacked ctx s hh hs
  have hsucc : decide (200 ≤ s ∧ s < 300) = false := by
    simp only [decide_eq_false_iff_not]
    omega
  have hW := Write_hijack { ctx with status := s } p hh hs
  have hE := WriteToCtx_eval
    ⟨[⟨chunkStr p, "", false⟩], Payload.none, s, false, false⟩
    { ctx with status := s, hijackServeContent := false } rfl
    (by show s ≠ 0; omega) (by show s ≠ 204; omega) (by show 0 < s; omega)
  rw [hw, hW]
  dsimp only
  rw [hE]
  refine ⟨rfl, rfl, newErrorResponse_bytes s (chunkStr p), ?_, rfl, rfl⟩
  simp [hsucc]

/-- Witness for C1 at a concrete armed context and a 416 range failure. -/
theorem hijack_suppresses_header_and_redirects_next_write_witness :
    (ctxArm.hijackServeContent = true ∧ 300 ≤ (416 : Int)) ∧
    ((ctxArm.WriteHeader 416).status = 416 ∧
     (ctxArm.WriteHeader 416).events = ctxArm.events ∧
     NewErrorResponse 416 [ErrInput.bytes (chunkStr (Chunk.raw "range not satisfiable"))] =
       some ⟨[⟨chunkStr (Chunk.raw "range not satisfiable"), "", false⟩], Payload.none,
         416, false, false⟩ ∧
     ((ctxArm.WriteHeader 416).Write (Chunk.raw "range not satisfiable")).1.events =
       ctxArm.events ++ [StreamEvent.header 416,
         StreamEvent.body (Chunk.json
           ⟨[⟨chunkStr (Chunk.raw "range not satisfiable"), "", false⟩], Payload.none,
             416, false, false⟩ false)] ∧
     ((ctxArm.WriteHeader 416).Write (Chunk.raw "range not satisfiable")).1.hijackServeContent
       = false ∧
     ((ctxArm.WriteHeader 416).Write (Chunk.raw "range not satisfiable")).1.done = true) :=
  ⟨⟨rfl, by omega⟩,
    hijack_suppresses_header_and_redirects_next_write ctxArm 416
      (Chunk.raw "range not satisfiable") rfl (by omega)⟩

/-- C10: while hijacking with a recorded status of 300 or more,
Context.Write reports (len p, nil) to its caller even though the bytes p
are never forwarded raw (only the substituted structured error response
reaches the stream) and the error of that substituted write is
discarded. -/
theorem hijacked_write_reports_success_and_discards_error
    (ctx : Context) (p : Chunk)
    (hh : ctx.hijackServeContent = true) (hs : 300 ≤ ctx.status) :
    (ctx.Write p).2 = (chunkLen p, (none : GoErr)) ∧
    (ctx.Write p).1.events =
      ctx.events ++ [StreamEvent.header ctx.status,
        StreamEvent.body (Chunk.json ⟨[⟨chunkStr p, "", false⟩], Payload.none,
          ctx.status, false, false⟩ false)] := by
  have hsucc : decide (200 ≤ ctx.status ∧ ctx.status < 300) = false := by
    simp only [decide_eq_false_iff_not]
    omega
  have hE := WriteToCtx_eval
    ⟨[⟨chunkStr p, "", false⟩], Payload.none, ctx.status, false, false⟩
    { ctx with hijackServeContent := false } rfl
    (by show ctx.status ≠ 0; omega) (by show ctx.status ≠ 204; omega)
    (by show 0 < ctx.status; omega)
  rw [Write_hijack ctx p hh hs]
  dsimp only
  rw [hE]
  exact ⟨rfl, by simp [hsucc]⟩

/-- Witness for C10: a scripted underlying write failure is still
reported as (len p, nil). -/
theorem hijacked_write_reports_success_and_discards_error_witness :
    (ctxHijack.hijackServeContent = true ∧ 300 ≤ ctxHijack.status ∧
      ctxHijack.wErrs = [some "broken pipe"]) ∧
    ((ctxHijack.Write (Chunk.raw "range error")).2 =
      (chunkLen (Chunk.raw "range error"), (none : GoErr)) ∧
     (ctxHijack.Write (Chunk.raw "range error")).1.events =
      ctxHijack.events ++ [StreamEvent.header ctxHijack.status,
        StreamEvent.body (Chunk.json ⟨[⟨chunkStr (Chunk.raw "range error"), "", false⟩],
          Payload.none, ctxHijack.status, false, false⟩ false)]) :=
  ⟨⟨rfl, by show (300 : Int) ≤ 416; omega, rfl⟩,
    hijacked_write_reports_success_and_discards_error ctxHijack (Chunk.raw "range error")
      rfl (by show (300 : Int) ≤ 416; omega)⟩

/-- C3 counterexample: on a fresh context, WriteHeader 200 commits the
header to the stream yet leaves done false, refuting the claim that every
header-committing operation leaves done true. -/
theorem writeheader_commits_header_but_done_stays_false :
    (ctx0.WriteHeader 200).events = [StreamEvent.header 200] ∧
    (ctx0.WriteHeader 200).done = false := by
  constructor <;> rfl

/-- C3 (amended): every body-committing operation (Write, JSON, Printf)
leaves done true, while WriteHeader records the status and (when not
suppressed) commits the header but leaves done unchanged. -/
theorem body_output_marks_done_header_does_not
    (ctx : Context) (p : Chunk) (code : Int) (ind : Bool) (v : JSONResponse)
    (ct s : String) (sh : Int) :
    (ctx.Write p).1.done = true ∧
    (Context.JSON ctx code ind v).1.done = true ∧
    (ctx.Printf code ct s).1.done = true ∧
    (ctx.WriteHeader sh).done = ctx.done :=
  ⟨Write_done ctx p, JSON_done ctx code ind v, Printf_done ctx code ct s,
    WriteHeader_done ctx sh⟩

/-- C4 counterexample: a 204 response with Success false keeps Success
false after WriteToCtx although 204 lies in [200, 300), refuting the
claim for the code value 204. -/
theorem success_not_derived_at_204 :
    (JSONResponse.WriteToCtx resp204 ctx0).1.Success = false ∧
    (200 ≤ (204 : Int) ∧ (204 : Int) < 300) := by
  constructor
  · simp [JSONResponse.WriteToCtx, resp204]
  · omega

/-- C4 (amended): for every plain or callback-wrapped structured response
whose code is not 204, after WriteToCtx the Success field equals
code ∈ [200, 300) for the finalized code; a 204 response returns early
with only a header and leaves Success untouched. -/
theorem success_matches_final_code_except_204
    (r : JSONResponse) (rp : JSONPResponse) (ctx ctx' : Context)
    (h1 : r.Code ≠ 204) (h2 : rp.toJSONResponse.Code ≠ 204) :
    ((JSONResponse.WriteToCtx r ctx).1.Success =
      decide (200 ≤ (JSONResponse.WriteToCtx r ctx).1.Code ∧
        (JSONResponse.WriteToCtx r ctx).1.Code < 300)) ∧
    ((JSONPResponse.WriteToCtx rp ctx').1.toJSONResponse.Success =
      decide (200 ≤ (JSONPResponse.WriteToCtx rp ctx').1.toJSONResponse.Code ∧
        (JSONPResponse.WriteToCtx rp ctx').1.toJSONResponse.Code < 300)) := by
  constructor
  · simp only [JSONResponse.WriteToCtx]
    rw [if_neg h1]
  · rw [JSONPWriteToCtx_eval rp ctx' h2]

/-- Witness for C4 (amended) at a 500 response and a callback response
with unset code. -/
theorem success_matches_final_code_except_204_witness :
    (resp500.Code ≠ 204 ∧ jsonpZero.toJSONResponse.Code ≠ 204) ∧
    (((JSONResponse.WriteToCtx resp500 ctx0).1.Success =
       decide (200 ≤ (JSONResponse.WriteToCtx resp500 ctx0).1.Code ∧
         (JSONResponse.WriteToCtx resp500 ctx0).1.Code < 300)) ∧
     ((JSONPResponse.WriteToCtx jsonpZero ctx0).1.toJSONResponse.Success =
       decide (200 ≤ (JSONPResponse.WriteToCtx jsonpZero ctx0).1.toJSONResponse.Code ∧
         (JSONPResponse.WriteToCtx jsonpZero ctx0).1.toJSONResponse.Code < 300))) :=
  ⟨⟨by decide, by decide⟩,
    success_matches_final_code_except_204 resp500 jsonpZero ctx0 ctx0
      (by decide) (by decide)⟩

/-- C5 counterexample: a callback-wrapped response with Code 0 and a
non-empty error list is finalized to code 200, not to the 400 the plain
structured defaulting rule would give. -/
theorem jsonp_zero_code_with_errors_defaults_to_200 :
    jsonpZero.toJSONResponse.Code = 0 ∧
    jsonpZero.toJSONResponse.Errors ≠ [] ∧
    (JSONPResponse.WriteToCtx jsonpZero ctx0).1.toJSONResponse.Code = 200 := by
  refine ⟨rfl, by simp [jsonpZero], ?_⟩
  rw [JSONPWriteToCtx_eval jsonpZero ctx0 (by decide)]
  simp [jsonpZero]

/-- C5 (amended): the callback-wrapped WriteToCtx defaults Code 0 to 200
unconditionally — unlike the plain structured response, which defaults to
400 when errors are present.  For every logical code other than 204 the
transport-level status it writes is 200 regardless of that code; a 204
response instead returns early after writing only the 204 header. -/
theorem jsonp_defaults_zero_to_200_transport_200_except_204
    (rp : JSONPResponse) (ctx : Context) :
    (rp.toJSONResponse.Code ≠ 204 →
      ((JSONPResponse.WriteToCtx rp ctx).1.toJSONResponse.Code =
        (if rp.toJSONResponse.Code = 0 then 200 else rp.toJSONResponse.Code)) ∧
      ((JSONPResponse.WriteToCtx rp ctx).2.1.events =
        ctx.events ++ [StreamEvent.header 200,
          StreamEvent.body (Chunk.jsonp rp.Callback (JSONPResponse.WriteToCtx rp ctx).1)])) ∧
    (rp.toJSONResponse.Code = 204 →
      JSONPResponse.WriteToCtx rp ctx = (rp, ctx.WriteHeader 204, none) ∧
      (JSONPResponse.WriteToCtx rp ctx).2.1.events =
        ctx.events ++ [StreamEvent.header 204]) := by
  constructor
  · intro h204
    rw [JSONPWriteToCtx_eval rp ctx h204]
    exact ⟨rfl, rfl⟩
  · intro h204
    have he : JSONPResponse.WriteToCtx rp ctx = (rp, ctx.WriteHeader 204, none) := by
      simp only [JSONPResponse.WriteToCtx]
      rw [if_pos h204]
    refine ⟨he, ?_⟩
    rw [he]
    rw [WriteHeader_else _ _ (by simp)]

/-- Witness for C5 (amended) at the concrete zero-code callback response
and the concrete 204 callback response. -/
theorem jsonp_defaults_zero_to_200_transport_200_except_204_witness :
    (jsonpZero.toJSONResponse.Code ≠ 204 ∧ jsonp204.toJSONResponse.Code = 204) ∧
    (((JSONPResponse.WriteToCtx jsonpZero ctx0).1.toJSONResponse.Code =
       (if jsonpZero.toJSONResponse.Code = 0 then 200 else jsonpZero.toJSONResponse.Code)) ∧
     ((JSONPResponse.WriteToCtx jsonpZero ctx0).2.1.events =
       ctx0.events ++ [StreamEvent.header 200,
         StreamEvent.body (Chunk.jsonp jsonpZero.Callback
           (JSONPResponse.WriteToCtx jsonpZero ctx0).1)])) ∧
    (JSONPResponse.WriteToCtx jsonp204 ctx0 = (jsonp204, ctx0.WriteHeader 204, none) ∧
     (JSONPResponse.WriteToCtx jsonp204 ctx0).2.1.events =
       ctx0.events ++ [StreamEvent.header 204]) :=
  ⟨⟨by decide, rfl⟩,
    (jsonp_defaults_zero_to_200_transport_200_except_204 jsonpZero ctx0).1 (by decide),
    (jsonp_defaults_zero_to_200_transport_200_except_204 jsonp204 ctx0).2 rfl⟩

/-- C7: a plain structured response with Code 0 at write time writes HTTP
status 400 when its error list is non-empty and 200 when it is empty
(the body carries the same finalized code and derived success flag). -/
theorem zero_code_writes_400_on_errors_else_200
    (es : List Error) (dat : Payload) (suc ind : Bool) (ctx : Context)
    (hh : ctx.hijackServeContent = false) :
    (JSONResponse.WriteToCtx ⟨es, dat, 0, suc, ind⟩ ctx).2.1.events =
      ctx.events ++ [StreamEvent.header (if es.isEmpty then 200 else 400),
        StreamEvent.body (Chunk.json
          ⟨es, dat, (if es.isEmpty then 200 else 400), es.isEmpty, ind⟩ ind)] := by
  rw [WriteToCtx_eval_zero ⟨es, dat, 0, suc, ind⟩ ctx hh rfl]
  cases es <;> simp

/-- Witness for C7 on both the empty and a non-empty error list. -/
theorem zero_code_writes_400_on_errors_else_200_witness :
    (ctx0.hijackServeContent = false) ∧
    ((JSONResponse.WriteToCtx ⟨[errSample], Payload.none, 0, false, false⟩ ctx0).2.1.events =
      ctx0.events ++ [StreamEvent.header (if [errSample].isEmpty then 200 else 400),
        StreamEvent.body (Chunk.json
          ⟨[errSample], Payload.none, (if [errSample].isEmpty then 200 else 400),
            [errSample].isEmpty, false⟩ false)]) ∧
    ((JSONResponse.WriteToCtx ⟨[], Payload.none, 0, false, false⟩ ctx0).2.1.events =
      ctx0.events ++ [StreamEvent.header (if ([] : List Error).isEmpty then 200 else 400),
        StreamEvent.body (Chunk.json
          ⟨[], Payload.none, (if ([] : List Error).isEmpty then 200 else 400),
            ([] : List Error).isEmpty, false⟩ false)]) :=
  ⟨rfl,
    zero_code_writes_400_on_errors_else_200 [errSample] Payload.none false false ctx0 rfl,
    zero_code_writes_400_on_errors_else_200 [] Payload.none false false ctx0 rfl⟩

/-- C2: when, after a prefix of handlers that all returned nil, a handler
returns a response that is neither nil nor the Break sentinel, the chain
stops at that handler and invokes WriteToCtx on that response exactly
when the context's done flag is false at that point; in either case the
chain passes at most one response to WriteToCtx. -/
theorem chain_stops_and_writes_at_most_once
    (pre post : List Handler) (h : Handler) (ctx ctx1 ctx2 : Context) (r : Response)
    (hpre : chainNilRun pre ctx = some ctx1)
    (hstep : h ctx1 = (ctx2, some r))
    (hr : r ≠ Response.breakR) :
    handlerChain.Serve (pre ++ h :: post) ctx =
      (if ctx2.done then ⟨ctx2, pre.length + 1, []⟩
       else ⟨(r.WriteToCtx ctx2).1, pre.length + 1, [r]⟩) ∧
    (handlerChain.Serve (pre ++ h :: post) ctx).wrote.length ≤ 1 := by
  have main : ∀ (pr : List Handler) (c : Context), chainNilRun pr c = some ctx1 →
      handlerChain.Serve (pr ++ h :: post) c =
        (if ctx2.done then ⟨ctx2, pr.length + 1, []⟩
         else ⟨(r.WriteToCtx ctx2).1, pr.length + 1, [r]⟩) := by
    intro pr
    induction pr with
    | nil =>
      intro c hpr
      simp only [chainNilRun, Option.some.injEq] at hpr
      subst hpr
      rw [List.nil_append, Serve_cons_some hstep hr post]
      simp
    | cons g pr' ih =>
      intro c hpr
      cases hg : g c with
      | mk ca ro =>
        cases ro with
        | some rr =>
          rw [chainNilRun_cons_some hg pr'] at hpr
          cases hpr
        | none =>
          rw [chainNilRun_cons_none hg pr'] at hpr
          rw [List.cons_append, Serve_cons_none hg (pr' ++ h :: post), ih ca hpr]
          by_cases hd : ctx2.done <;> simp [hd]
  refine ⟨main pre ctx hpre, ?_⟩
  rw [main pre ctx hpre]
  by_cases hd : ctx2.done <;> simp [hd]

/-- Witness for C2: one nil handler followed by a handler returning a
real response on a fresh (not-done) context. -/
theorem chain_stops_and_writes_at_most_once_witness :
    (chainNilRun [hNil] ctx0 = some ctx0 ∧ hPong ctx0 = (ctx0, some respPong) ∧
      respPong ≠ Response.breakR) ∧
    (handlerChain.Serve ([hNil] ++ hPong :: []) ctx0 =
      (if ctx0.done then ⟨ctx0, [hNil].length + 1, []⟩
       else ⟨(respPong.WriteToCtx ctx0).1, [hNil].length + 1, [respPong]⟩) ∧
     (handlerChain.Serve ([hNil] ++ hPong :: []) ctx0).wrote.length ≤ 1) :=
  ⟨⟨rfl, rfl, by simp [respPong]⟩,
    chain_stops_and_writes_at_most_once [hNil] [] hPong ctx0 ctx0 ctx0 respPong
      rfl rfl (by simp [respPong])⟩

/-- C6: when, after a prefix of handlers that all returned nil, a handler
returns the Break sentinel, the chain stops at that handler (no later
handler runs), never invokes WriteToCtx, and adds nothing to the stream:
the final context is exactly the breaking handler's post-state. -/
theorem chain_break_stops_without_writing
    (pre post : List Handler) (h : Handler) (ctx ctx1 ctx2 : Context)
    (hpre : chainNilRun pre ctx = some ctx1)
    (hstep : h ctx1 = (ctx2, some Response.breakR)) :
    handlerChain.Serve (pre ++ h :: post) ctx = ⟨ctx2, pre.length + 1, []⟩ ∧
    (handlerChain.Serve (pre ++ h :: post) ctx).ctx.events = ctx2.events ∧
    (handlerChain.Serve (pre ++ h :: post) ctx).wrote = [] := by
  have main : ∀ (pr : List Handler) (c : Context), chainNilRun pr c = some ctx1 →
      handlerChain.Serve (pr ++ h :: post) c = ⟨ctx2, pr.length + 1, []⟩ := by
    intro pr
    induction pr with
    | nil =>
      intro c hpr
      simp only [chainNilRun, Option.some.injEq] at hpr
      subst hpr
      rw [List.nil_append, Serve_cons_break hstep post]
      simp
    | cons g pr' ih =>
      intro c hpr
      cases hg : g c with
      | mk ca ro =>
        cases ro with
        | some rr =>
          rw [chainNilRun_cons_some hg pr'] at hpr
          cases hpr
        | none =>
          rw [chainNilRun_cons_none hg pr'] at hpr
          rw [List.cons_append, Serve_cons_none hg (pr' ++ h :: post), ih ca hpr]
          simp
  refine ⟨main pre ctx hpre, ?_, ?_⟩ <;> rw [main pre ctx hpre]

/-- Witness for C6: the spec's test chain, Break first and a real
response second; the second handler is never consulted. -/
theorem chain_break_stops_without_writing_witness :
    (chainNilRun [] ctx0 = some ctx0 ∧ hBreak ctx0 = (ctx0, some Response.breakR)) ∧
    (handlerChain.Serve ([] ++ hBreak :: [hPong]) ctx0 =
      ⟨ctx0, ([] : List Handler).length + 1, []⟩ ∧
     (handlerChain.Serve ([] ++ hBreak :: [hPong]) ctx0).ctx.events = ctx0.events ∧
     (handlerChain.Serve ([] ++ hBreak :: [hPong]) ctx0).wrote = []) :=
  ⟨⟨rfl, rfl⟩,
    chain_break_stops_without_writing [] [hPong] hBreak ctx0 ctx0 ctx0 rfl rfl⟩

/-- C8: error-response construction over a non-empty input list yields
exactly the in-order concatenation of the normalized inputs: responses
are spliced flat and aggregators are flattened recursively, so the error
list is never a nested array-of-arrays. -/
theorem error_construction_splices_in_order (code : Int) (errs : List ErrInput)
    (hne : errs ≠ []) :
    NewJSONErrorResponse code errs =
      (specNormalize (ErrInput.multi errs)).map
        (fun es => ⟨es, Payload.none, code, false, false⟩) := by
  cases errs with
  | nil => exact absurd rfl hne
  | cons e es =>
    unfold NewJSONErrorResponse
    rw [show ((e :: es : List ErrInput).isEmpty) = false from rfl]
    simp only [Bool.false_eq_true, if_false]
    rw [appendErrs_multi (e :: es) []]
    rw [appendErr_spec]
    cases hm : specNormalize (ErrInput.multi (e :: es)) <;> simp

/-- Witness for C8 at the spec's example inputs: a raw string and a
structured error yield a two-element list in order. -/
theorem error_construction_splices_in_order_witness :
    (([ErrInput.str "bad field", ErrInput.errorPtr errSample] : List ErrInput) ≠ []) ∧
    NewJSONErrorResponse 400 [ErrInput.str "bad field", ErrInput.errorPtr errSample] =
      (specNormalize (ErrInput.multi [ErrInput.str "bad field", ErrInput.errorPtr errSample])).map
        (fun es => ⟨es, Payload.none, 400, false, false⟩) :=
  ⟨by simp,
    error_construction_splices_in_order 400
      [ErrInput.str "bad field", ErrInput.errorPtr errSample] (by simp)⟩

/-- C9: an input outside the closed accepted set makes appendErr abort
(the Go panic, modelled as none) and aborts the whole error-response
construction; no such input is ever stored or coerced. -/
theorem unsupported_error_input_panics (acc : List Error) (t : String)
    (code : Int) (errs : List ErrInput) (hmem : ErrInput.other t ∈ errs) :
    appendErr acc (ErrInput.other t) = none ∧
    NewJSONErrorResponse code errs = none := by
  refine ⟨by simp [appendErr], ?_⟩
  cases errs with
  | nil => cases hmem
  | cons e es =>
    unfold NewJSONErrorResponse
    rw [show ((e :: es : List ErrInput).isEmpty) = false from rfl]
    simp only [Bool.false_eq_true, if_false]
    rw [appendErrs_multi (e :: es) []]
    rw [appendErr_spec]
    rw [specNormalize_multi_none t (e :: es) hmem]
    rfl

/-- Witness for C9 at a value of an unsupported Go type. -/
theorem unsupported_error_input_panics_witness :
    (ErrInput.other "chan int" ∈ ([ErrInput.other "chan int"] : List ErrInput)) ∧
    (appendErr [] (ErrInput.other "chan int") = none ∧
     NewJSONErrorResponse 400 [ErrInput.other "chan int"] = none) :=
  ⟨List.Mem.head _,
    unsupported_error_input_panics [] "chan int" 400 [ErrInput.other "chan int"]
      (List.Mem.head _)⟩

end Apiserv
